import Mathlib

/-! # Verification of the ai-codereviewer diff-to-review-comment pipeline

Shallow embedding of `src/main.ts` of sarthakvijayvergiya/ai-codereviewer.
The pipeline parses a pull-request diff, filters excluded files, builds one
prompt per diff chunk, sends it to a completion service, parses the textual
reply as JSON, maps the suggestions to postable comments and submits them in
a single review call.

JavaScript dynamic values are modelled by `JSVal` (including `undefined`),
JS numbers by `JSNum` (a rational or NaN; floating-point rounding is not
modelled, which is exact on the small integers the pipeline handles).
`JSON.parse` is modelled by `jsonParse`, a character-level JSON parser
(exponent parts, `\u` escapes and the rejection of raw control characters
inside strings are not modelled; no claim exercises them).  External
services (the hosting API and the completion service) are passed in as
explicit oracle arguments.
-/

namespace AICR

/-- A JavaScript number: NaN or a rational value. -/
inductive JSNum where
  | nan : JSNum
  | val : Rat → JSNum
deriving DecidableEq

/-- A JavaScript value as produced by `JSON.parse` plus `undefined`
(which property access on a non-object yields). -/
inductive JSVal where
  | undefined : JSVal
  | null : JSVal
  | bool : Bool → JSVal
  | num : JSNum → JSVal
  | str : String → JSVal
  | arr : List JSVal → JSVal
  | obj : List (String × JSVal) → JSVal

mutual

/-- Decidable equality on `JSVal` (hand-rolled because of the nested lists). -/
def decEqVal : (a b : JSVal) → Decidable (a = b)
  | .undefined, .undefined => isTrue rfl
  | .null, .null => isTrue rfl
  | .bool x, .bool y =>
    if h : x = y then isTrue (by rw [h]) else isFalse (by simp [h])
  | .num x, .num y =>
    if h : x = y then isTrue (by rw [h]) else isFalse (by simp [h])
  | .str x, .str y =>
    if h : x = y then isTrue (by rw [h]) else isFalse (by simp [h])
  | .arr xs, .arr ys =>
    match decEqValList xs ys with
    | isTrue h => isTrue (by rw [h])
    | isFalse h => isFalse (by simp [h])
  | .obj xs, .obj ys =>
    match decEqPairList xs ys with
    | isTrue h => isTrue (by rw [h])
    | isFalse h => isFalse (by simp [h])
  | .undefined, .null | .undefined, .bool _ | .undefined, .num _
  | .undefined, .str _ | .undefined, .arr _ | .undefined, .obj _
  | .null, .undefined | .null, .bool _ | .null, .num _
  | .null, .str _ | .null, .arr _ | .null, .obj _
  | .bool _, .undefined | .bool _, .null | .bool _, .num _
  | .bool _, .str _ | .bool _, .arr _ | .bool _, .obj _
  | .num _, .undefined | .num _, .null | .num _, .bool _
  | .num _, .str _ | .num _, .arr _ | .num _, .obj _
  | .str _, .undefined | .str _, .null | .str _, .bool _
  | .str _, .num _ | .str _, .arr _ | .str _, .obj _
  | .arr _, .undefined | .arr _, .null | .arr _, .bool _
  | .arr _, .num _ | .arr _, .str _ | .arr _, .obj _
  | .obj _, .undefined | .obj _, .null | .obj _, .bool _
  | .obj _, .num _ | .obj _, .str _ | .obj _, .arr _ =>
    isFalse (fun h => JSVal.noConfusion h)

/-- Decidable equality on lists of `JSVal`. -/
def decEqValList : (as bs : List JSVal) → Decidable (as = bs)
  | [], [] => isTrue rfl
  | [], _ :: _ => isFalse (by simp)
  | _ :: _, [] => isFalse (by simp)
  | a :: as, b :: bs =>
    match decEqVal a b with
    | isFalse h1 => isFalse (by simp [h1])
    | isTrue h1 =>
      match decEqValList as bs with
      | isTrue h2 => isTrue (by rw [h1, h2])
      | isFalse h2 => isFalse (by simp [h2])

/-- Decidable equality on lists of object members. -/
def decEqPairList : (as bs : List (String × JSVal)) → Decidable (as = bs)
  | [], [] => isTrue rfl
  | [], _ :: _ => isFalse (by simp)
  | _ :: _, [] => isFalse (by simp)
  | (k1, v1) :: as, (k2, v2) :: bs =>
    if hk : k1 = k2 then
      match decEqVal v1 v2 with
      | isFalse h1 => isFalse (by simp [h1])
      | isTrue h1 =>
        match decEqPairList as bs with
        | isTrue h2 => isTrue (by rw [hk, h1, h2])
        | isFalse h2 => isFalse (by simp [h2])
    else isFalse (by simp [hk])

end

instance : DecidableEq JSVal := decEqVal

/-- JS truthiness: `undefined`, `null`, `false`, `NaN`, `0` and `""` are
falsy; every array and object is truthy. -/
def truthy : JSVal → Bool
  | .undefined => false
  | .null => false
  | .bool b => b
  | .num .nan => false
  | .num (.val q) => q != 0
  | .str s => s != ""
  | .arr _ => true
  | .obj _ => true

/-! ## JSON parsing (model of `JSON.parse`) -/

/-- Skip JSON whitespace. -/
def skipWs : List Char → List Char
  | c :: cs =>
    if c = ' ' ∨ c = '\t' ∨ c = '\n' ∨ c = '\r' then skipWs cs else c :: cs
  | [] => []

/-- Digit list to natural number value. -/
def digitsToNat (ds : List Char) : Nat :=
  ds.foldl (fun a c => a * 10 + (c.toNat - 48)) 0

/-- Parse a JSON number literal: optional minus, digits, optional fraction.
Exponent parts are not modelled. -/
def parseJNumber (cs : List Char) : Option (Rat × List Char) :=
  let p := match cs with
    | '-' :: r => (true, r)
    | _ => (false, cs)
  let ds := p.2.takeWhile Char.isDigit
  let cs2 := p.2.dropWhile Char.isDigit
  if ds.isEmpty then none
  else
    match cs2 with
    | '.' :: cs3 =>
      let fs := cs3.takeWhile Char.isDigit
      let cs4 := cs3.dropWhile Char.isDigit
      if fs.isEmpty then none
      else
        let n : Int := digitsToNat ds * 10 ^ fs.length + digitsToNat fs
        let q := mkRat n (10 ^ fs.length)
        some (if p.1 then -q else q, cs4)
    | _ =>
      let q : Rat := mkRat (digitsToNat ds) 1
      some (if p.1 then -q else q, cs2)

/-- Parse the body of a JSON string literal (after the opening quote),
accumulating decoded characters; `\u` escapes are not modelled. -/
def parseJStringBody : List Char → List Char → Option (String × List Char)
  | [], _ => none
  | '"' :: rest, acc => some (String.mk acc.reverse, rest)
  | '\\' :: [], _ => none
  | '\\' :: e :: rest2, acc =>
    let dec : Option Char :=
      if e = '"' then some '"'
      else if e = '\\' then some '\\'
      else if e = '/' then some '/'
      else if e = 'n' then some '\n'
      else if e = 't' then some '\t'
      else if e = 'r' then some '\r'
      else if e = 'b' then some (Char.ofNat 8)
      else if e = 'f' then some (Char.ofNat 12)
      else none
    match dec with
    | some d => parseJStringBody rest2 (d :: acc)
    | none => none
  | c :: rest, acc => parseJStringBody rest (c :: acc)

mutual

/-- Parse one JSON value; fuel bounds nesting depth. -/
def parseJVal : Nat → List Char → Option (JSVal × List Char)
  | 0, _ => none
  | fuel + 1, cs =>
    match skipWs cs with
    | '\x7b' :: r =>
      (match skipWs r with
       | '\x7d' :: r2 => some (.obj [], r2)
       | r2 => (parseJObjMembers fuel r2).map (fun p => (.obj p.1, p.2)))
    | '[' :: r =>
      (match skipWs r with
       | ']' :: r2 => some (.arr [], r2)
       | r2 => (parseJArrElems fuel r2).map (fun p => (.arr p.1, p.2)))
    | '"' :: r => (parseJStringBody r []).map (fun p => (.str p.1, p.2))
    | 't' :: 'r' :: 'u' :: 'e' :: r => some (.bool true, r)
    | 'f' :: 'a' :: 'l' :: 's' :: 'e' :: r => some (.bool false, r)
    | 'n' :: 'u' :: 'l' :: 'l' :: r => some (.null, r)
    | s => (parseJNumber s).map (fun p => (.num (.val p.1), p.2))

/-- Parse one or more comma-separated array elements up to `]`. -/
def parseJArrElems : Nat → List Char → Option (List JSVal × List Char)
  | 0, _ => none
  | fuel + 1, cs => do
    let p ← parseJVal fuel cs
    match skipWs p.2 with
    | ',' :: r2 => do
      let q ← parseJArrElems fuel r2
      some (p.1 :: q.1, q.2)
    | ']' :: r2 => some ([p.1], r2)
    | _ => none

/-- Parse one or more comma-separated object members up to the closing brace. -/
def parseJObjMembers : Nat → List Char → Option (List (String × JSVal) × List Char)
  | 0, _ => none
  | fuel + 1, cs =>
    match skipWs cs with
    | '"' :: r => do
      let k ← parseJStringBody r []
      match skipWs k.2 with
      | ':' :: r3 => do
        let v ← parseJVal fuel r3
        match skipWs v.2 with
        | ',' :: r5 => do
          let ms ← parseJObjMembers fuel r5
          some ((k.1, v.1) :: ms.1, ms.2)
        | '\x7d' :: r5 => some ([(k.1, v.1)], r5)
        | _ => none
      | _ => none
    | _ => none

end

/-- Model of `JSON.parse`: `none` when the input is rejected (the JS call
throws), otherwise the parsed value.  Nesting depth of a JSON text is
bounded by its length, so the fuel is sufficient. -/
def jsonParse (s : String) : Option JSVal :=
  match parseJVal (s.length + 1) s.data with
  | some (v, rest) => if (skipWs rest).isEmpty then some v else none
  | none => none

/-! ## JS string and number coercions (models of the JS builtins used) -/

/-- Render a JS number as `String(n)` does: integers exactly; a non-integral
rational falls back to Lean fraction notation, an approximation no claim
exercises. -/
def jsNumToString : JSNum → String
  | .nan => "NaN"
  | .val q => if q.den = 1 then toString q.num else toString q

mutual

/-- Model of JS string conversion `String(v)`. -/
def jsToString : JSVal → String
  | .undefined => "undefined"
  | .null => "null"
  | .bool b => cond b "true" "false"
  | .num n => jsNumToString n
  | .str s => s
  | .arr xs => jsArrToString xs
  | .obj _ => "[object Object]"

/-- Array stringification: elements joined by commas, with `null` and
`undefined` elements rendered as empty strings. -/
def jsArrToString : List JSVal → String
  | [] => ""
  | x :: xs =>
    (match x with
     | .null => ""
     | .undefined => ""
     | v => jsToString v)
    ++ (match xs with
        | [] => ""
        | _ :: _ => "," ++ jsArrToString xs)

end

/-- Parse a decimal numeric string (after trimming): optional sign, digits,
optional fraction.  Hexadecimal, exponent and `Infinity` forms of JS
`Number(string)` are not modelled; no claim exercises them. -/
def parseSignedDec (cs : List Char) : Option Rat :=
  let p := match cs with
    | '-' :: r => (true, r)
    | '+' :: r => (false, r)
    | _ => (false, cs)
  let ds := p.2.takeWhile Char.isDigit
  let r2 := p.2.dropWhile Char.isDigit
  match r2 with
  | '.' :: r3 =>
    let fs := r3.takeWhile Char.isDigit
    let r4 := r3.dropWhile Char.isDigit
    if (ds.isEmpty ∧ fs.isEmpty) ∨ ¬ r4.isEmpty then none
    else
      let n : Int := digitsToNat ds * 10 ^ fs.length + digitsToNat fs
      let q := mkRat n (10 ^ fs.length)
      some (if p.1 then -q else q)
  | [] =>
    if ds.isEmpty then none
    else
      let q : Rat := mkRat (digitsToNat ds) 1
      some (if p.1 then -q else q)
  | _ => none

/-- JS whitespace characters recognised by the `trim` model (the common
ASCII ones; exotic Unicode space classes are not modelled). -/
def isWsChar (c : Char) : Bool :=
  c = ' ' ∨ c = '\t' ∨ c = '\n' ∨ c = '\r'

/-- Model of JS `String.prototype.trim`. -/
def jsTrim (s : String) : String :=
  String.mk (((s.data.dropWhile isWsChar).reverse.dropWhile isWsChar).reverse)

/-- Model of JS `Number(string)`: whitespace-only is `0`, otherwise a decimal
parse, otherwise `NaN`. -/
def jsStrToNumber (s : String) : JSNum :=
  let t := jsTrim s
  if t = "" then .val 0
  else
    match parseSignedDec t.data with
    | some q => .val q
    | none => .nan

/-- Model of JS `Number(v)` on a parsed JSON value. -/
def jsToNumber : JSVal → JSNum
  | .undefined => .nan
  | .null => .val 0
  | .bool b => .val (if b then 1 else 0)
  | .num n => n
  | .str s => jsStrToNumber s
  | .arr xs => jsStrToNumber (jsArrToString xs)
  | .obj _ => .nan

/-- JS property access `v[name]`: throws (error) on `null`/`undefined`,
yields the last-written member of an object, `undefined` otherwise. -/
def jsField (v : JSVal) (name : String) : Except Unit JSVal :=
  match v with
  | .null => .error ()
  | .undefined => .error ()
  | .obj fs =>
    .ok (match fs.reverse.find? (fun p => p.1 == name) with
         | some p => p.2
         | none => .undefined)
  | _ => .ok .undefined

/-! ## Data model (`main.ts` interfaces and the parse-diff shapes it reads) -/

/-- `interface PRDetails` of `main.ts`. -/
structure PRDetails where
  owner : String
  repo : String
  pull_number : Nat
  title : String
  description : String
deriving DecidableEq

/-- One change line of a parse-diff chunk as `main.ts` reads it: the
`ln` field (populated on addition/deletion lines), the `ln2` field
(populated on context lines) and the line content. -/
structure Change where
  ln : Option Nat
  ln2 : Option Nat
  content : String
deriving DecidableEq

/-- One hunk of a parsed diff: raw hunk header/content plus its change lines. -/
structure Chunk where
  content : String
  changes : List Change
deriving DecidableEq

/-- One file of a parsed diff: the target path `to` (`none` models the
`undefined` of parse-diff, `some "/dev/null"` is the deleted-file sentinel)
and its chunks. -/
structure File where
  «to» : Option String
  chunks : List Chunk
deriving DecidableEq

/-- A hosting-API-ready comment `{body, path, line}` as built by
`createComment`; `line` is a raw JS number, exactly what
`Number(aiResponse.lineNumber)` produced. -/
structure Comment where
  body : String
  path : String
  line : JSNum
deriving DecidableEq

/-- Outcome of one completion-service call as observed inside
`getAIResponse`'s `try` block: either the call (or reading
`choices[0].message`) threw, or it returned a message whose `content` is a
string or null/undefined. -/
inductive ServiceOutcome where
  | failure : ServiceOutcome
  | reply : Option String → ServiceOutcome

/-! ## Prompt Builder (`createPrompt`, main.ts lines 126-156) -/

/-- JS template interpolation of a possibly-undefined string. -/
def jsTemplOptStr : Option String → String
  | none => "undefined"
  | some s => s

/-- JS template interpolation of a possibly-undefined number field. -/
def jsTemplNum : Option Nat → String
  | none => "undefined"
  | some n => toString n

/-- Rendering of one change line in the prompt:
`` `${c.ln ? c.ln : c.ln2} ${c.content}` ``.  JS truthiness makes a present
`ln` of value `0` fall back to `ln2`. -/
def renderChange (c : Change) : String :=
  (match c.ln with
   | some n => if n = 0 then jsTemplNum c.ln2 else toString n
   | none => jsTemplNum c.ln2) ++ " " ++ c.content

/-- Template text before the interpolated file path. -/
def promptSeg1 : String :=
  "Your task is to review pull requests. Instructions:\n- Provide the response in following JSON format:  [\x7b\"lineNumber\":  <line_number>, \"reviewComment\": \"<review comment>\"\x7d]\n- Do not give positive comments or compliments.\n- Provide comments and suggestions ONLY if there is something to improve, otherwise return an empty array.\n- Write the comment in GitHub Markdown format.\n- Use the given description only for the overall context and only comment the code.\n- IMPORTANT: NEVER suggest adding comments to the code.\n\nReview the following code diff in the file \""

/-- Template text between the file path and the PR title. -/
def promptSeg2 : String :=
  "\" and take the pull request title and description into account when writing the response.\n  \nPull request title: "

/-- Template text between the PR title and the PR description. -/
def promptSeg3 : String :=
  "\nPull request description:\n\n---\n"

/-- Template text between the PR description and the chunk content. -/
def promptSeg4 : String :=
  "\n---\n\nGit diff to review:\n\n\x60\x60\x60diff\n"

/-- Template text closing the diff code fence. -/
def promptSeg5 : String :=
  "\n\x60\x60\x60\n"

/-- `createPrompt` (main.ts lines 126-156): the instruction template with the
file path, PR title, PR description, raw chunk content and rendered change
lines interpolated. -/
def createPrompt (file : File) (chunk : Chunk) (prDetails : PRDetails) : String :=
  promptSeg1 ++ jsTemplOptStr file.to ++ promptSeg2 ++ prDetails.title
    ++ promptSeg3 ++ prDetails.description ++ promptSeg4 ++ chunk.content
    ++ "\n" ++ String.intercalate "\n" (chunk.changes.map renderChange)
    ++ promptSeg5

/-! ## Review Client (`getAIResponse`, main.ts lines 158-201) -/

/-- `getAIResponse` (main.ts lines 158-201) given the observed service
outcome: `res = response.choices[0].message?.content?.trim() || "[]"` and
`JSON.parse(res)`, with every exception inside the `try` caught and turned
into `null` (`none`). -/
def getAIResponse (outcome : ServiceOutcome) : Option JSVal :=
  match outcome with
  | .failure => none
  | .reply content =>
    let res := match content with
      | none => "[]"
      | some c => if jsTrim c = "" then "[]" else jsTrim c
    jsonParse res

/-! ## Comment Mapper (`createComment`, main.ts lines 203-221) -/

/-- The body of the `flatMap` callback of `createComment` for one
suggestion: drop it when `file.to` is falsy (undefined or `""`), otherwise
read its `reviewComment` and `lineNumber` properties (which throws on a
`null`/`undefined` element) and build the comment. -/
def commentOfSuggestion (file : File) (x : JSVal) : Except Unit (List Comment) :=
  match file.to with
  | none => .ok []
  | some s =>
    if s = "" then .ok []
    else
      match jsField x "reviewComment" with
      | .error e => .error e
      | .ok rc =>
        match jsField x "lineNumber" with
        | .error e => .error e
        | .ok ln =>
          .ok [⟨"[GPT-REVIEW] " ++ jsToString rc, s, jsToNumber ln⟩]

/-- `Array.prototype.flatMap` over the suggestion list, propagating a thrown
exception from the callback. -/
def flatMapExcept (f : JSVal → Except Unit (List Comment)) :
    List JSVal → Except Unit (List Comment)
  | [] => .ok []
  | x :: xs =>
    match f x with
    | .error e => .error e
    | .ok ys =>
      match flatMapExcept f xs with
      | .error e => .error e
      | .ok rest => .ok (ys ++ rest)

/-- `createComment` (main.ts lines 203-221): `aiResponses.flatMap(...)`.
Calling `.flatMap` on a value that is not an array throws a `TypeError`;
that exception is NOT caught anywhere below `main`'s rethrow. -/
def createComment (file : File) (chunk : Chunk) (aiResponses : JSVal) :
    Except Unit (List Comment) :=
  match aiResponses with
  | .arr xs => flatMapExcept (commentOfSuggestion file) xs
  | _ => .error ()

/-- Decidable equality for `Except`, used to evaluate concrete runs. -/
instance {ε α : Type} [DecidableEq ε] [DecidableEq α] : DecidableEq (Except ε α) :=
  fun a b =>
  match a, b with
  | .error x, .error y =>
    if h : x = y then isTrue (by rw [h]) else isFalse (by simp [h])
  | .ok x, .ok y =>
    if h : x = y then isTrue (by rw [h]) else isFalse (by simp [h])
  | .error _, .ok _ => isFalse (fun h => Except.noConfusion h)
  | .ok _, .error _ => isFalse (fun h => Except.noConfusion h)

/-! ## Orchestrator: analysis loop (`analyzeCode`, main.ts lines 76-108)

The completion service is an oracle mapping each prompt to the outcome of
its one call.  The loop result is the trace of prompts sent paired with
either the accumulated comment list or the exception (if any) that escaped
`analyzeCode`. -/

/-- Prepend freshly generated comments to the rest of the accumulator,
propagating an exception from the rest of the loop. -/
def exceptPrepend (cs : List Comment) (r : Except Unit (List Comment)) :
    Except Unit (List Comment) :=
  match r with
  | .error e => .error e
  | .ok ds => .ok (cs ++ ds)

/-- The inner chunk loop of `analyzeCode` for one file: build the prompt,
call the service, and on a truthy parsed reply map it through
`createComment` and push the result.  (`if (newComments)` in the source is
always true since `createComment` returns an array.) -/
def processChunks (oracle : String → ServiceOutcome) (file : File)
    (pr : PRDetails) : List Chunk → List String × Except Unit (List Comment)
  | [] => ([], .ok [])
  | chunk :: rest =>
    match getAIResponse (oracle (createPrompt file chunk pr)) with
    | none =>
      (createPrompt file chunk pr :: (processChunks oracle file pr rest).1,
       (processChunks oracle file pr rest).2)
    | some v =>
      if truthy v then
        match createComment file chunk v with
        | .error e => ([createPrompt file chunk pr], .error e)
        | .ok cs =>
          (createPrompt file chunk pr :: (processChunks oracle file pr rest).1,
           exceptPrepend cs (processChunks oracle file pr rest).2)
      else
        (createPrompt file chunk pr :: (processChunks oracle file pr rest).1,
         (processChunks oracle file pr rest).2)

/-- The outer file loop of `analyzeCode`: skip files whose target path is
the deleted-file sentinel `"/dev/null"`, otherwise run the chunk loop and
accumulate. -/
def analyzeFiles (oracle : String → ServiceOutcome) (pr : PRDetails) :
    List File → List String × Except Unit (List Comment)
  | [] => ([], .ok [])
  | file :: rest =>
    if file.to = some "/dev/null" then analyzeFiles oracle pr rest
    else
      match processChunks oracle file pr file.chunks with
      | (ps, .error e) => (ps, .error e)
      | (ps, .ok cs) =>
        (ps ++ (analyzeFiles oracle pr rest).1,
         exceptPrepend cs (analyzeFiles oracle pr rest).2)

/-- `analyzeCode` (main.ts lines 76-108). -/
def analyzeCode (oracle : String → ServiceOutcome) (parsedDiff : List File)
    (prDetails : PRDetails) : List String × Except Unit (List Comment) :=
  analyzeFiles oracle prDetails parsedDiff

/-! ## Path Filter (main.ts lines 288-300) -/

/-- `core.getInput("exclude").split(",").map(s => s.trim())`. -/
def parseExcludeInput (raw : String) : List String :=
  (raw.splitOn ",").map jsTrim

/-- The `parsedDiff.filter(...)` of `main` (lines 294-300): keep a file iff
no exclude pattern matches `file.to ?? ""`.  The glob matcher (the
`minimatch` library) is passed in as an abstract predicate. -/
def filterFiles (matcher : String → String → Bool)
    (excludePatterns : List String) (parsedDiff : List File) : List File :=
  parsedDiff.filter fun file =>
    !(excludePatterns.any fun pattern => matcher (file.to.getD "") pattern)

/-! ## Submission (`createReviewComment` and the tail of `main`,
main.ts lines 223-236 and 303-317) -/

/-- One call to `octokit.pulls.createReview` as issued by
`createReviewComment`: the PR coordinates, the full comment list and the
review event disposition (always the literal `"COMMENT"`). -/
inductive SubmitCall where
  | createReview : String → String → Nat → List Comment → String → SubmitCall
deriving DecidableEq

/-- The submission step of `main` (lines 306-317): one `createReviewComment`
call when the accumulated list is non-empty, none otherwise. -/
def submitComments (pr : PRDetails) (comments : List Comment) : List SubmitCall :=
  if comments.length > 0 then
    [.createReview pr.owner pr.repo pr.pull_number comments "COMMENT"]
  else []

/-- The analyze-and-submit tail of `main` (lines 303-317): an exception from
`analyzeCode` propagates (rethrown by `main`'s catch) and no review call is
made; otherwise the accumulated comments are submitted. -/
def analyzeAndSubmit (oracle : String → ServiceOutcome) (files : List File)
    (pr : PRDetails) : Except Unit (List SubmitCall) :=
  match (analyzeCode oracle files pr).2 with
  | .error e => .error e
  | .ok comments => .ok (submitComments pr comments)

/-! ## PR context resolution (`getPRDetails`, main.ts lines 43-59) -/

/-- The fields of the CI event payload that `getPRDetails` reads. -/
structure EventPayload where
  ownerLogin : String
  repoName : String
  number : Nat
deriving DecidableEq

/-- The fields of the hosting API's PR-detail response that `getPRDetails`
reads; `title` and `body` may be null. -/
structure PRApiData where
  title : Option String
  body : Option String
deriving DecidableEq

/-- `getPRDetails` (main.ts lines 43-59): build the `PRDetails` record,
substituting `""` for a null title or body (`?? ""`). -/
def getPRDetails (event : EventPayload) (api : PRApiData) : PRDetails :=
  { owner := event.ownerLogin
    repo := event.repoName
    pull_number := event.number
    title := api.title.getD ""
    description := api.body.getD "" }

/-! ## Helper lemmas -/

theorem exceptPrepend_nil (r : Except Unit (List Comment)) :
    exceptPrepend [] r = r := by
  cases r <;> rfl

/-- A chunk whose Review Client result is `null` contributes nothing. -/
theorem processChunks_cons_none (oracle : String → ServiceOutcome)
    (file : File) (pr : PRDetails) (chunk : Chunk) (rest : List Chunk)
    (h : getAIResponse (oracle (createPrompt file chunk pr)) = none) :
    (processChunks oracle file pr (chunk :: rest)).2
      = (processChunks oracle file pr rest).2 := by
  simp [processChunks, h]

/-- A chunk whose Review Client result is the empty array contributes
nothing either. -/
theorem processChunks_cons_emptyArr (oracle : String → ServiceOutcome)
    (file : File) (pr : PRDetails) (chunk : Chunk) (rest : List Chunk)
    (h : getAIResponse (oracle (createPrompt file chunk pr)) = some (.arr [])) :
    (processChunks oracle file pr (chunk :: rest)).2
      = (processChunks oracle file pr rest).2 := by
  simp [processChunks, h, truthy, createComment, flatMapExcept, exceptPrepend_nil]

/-- Every comment built from one suggestion carries the file's real target
path. -/
theorem commentOfSuggestion_paths (file : File) (x : JSVal)
    (ys : List Comment) (h : commentOfSuggestion file x = .ok ys) :
    ∀ c ∈ ys, ∃ s, file.to = some s ∧ s ≠ "" ∧ c.path = s := by
  intro c hc
  unfold commentOfSuggestion at h
  split at h
  next hto => cases h; simp at hc
  next s hto =>
    split at h
    next hs => cases h; simp at hc
    next hs =>
      split at h
      next e hrc => exact Except.noConfusion h
      next rc hrc =>
        split at h
        next e hln => exact Except.noConfusion h
        next ln hln =>
          cases h
          simp at hc
          subst hc
          exact ⟨s, hto, hs, rfl⟩

/-- Path provenance through `flatMap`. -/
theorem flatMapExcept_paths (file : File) :
    ∀ (xs : List JSVal) (cs : List Comment),
      flatMapExcept (commentOfSuggestion file) xs = .ok cs →
      ∀ c ∈ cs, ∃ s, file.to = some s ∧ s ≠ "" ∧ c.path = s := by
  intro xs
  induction xs with
  | nil =>
    intro cs h c hc
    cases h
    simp at hc
  | cons x xs ih =>
    intro cs h c hc
    unfold flatMapExcept at h
    split at h
    next e hf => exact Except.noConfusion h
    next ys hf =>
      split at h
      next e hrest => exact Except.noConfusion h
      next rest hrest =>
        cases h
        rcases List.mem_append.mp hc with hin | hin
        · exact commentOfSuggestion_paths file x ys hf c hin
        · exact ih rest hrest c hin

/-- Path provenance through `createComment`. -/
theorem createComment_paths (file : File) (chunk : Chunk) (v : JSVal)
    (cs : List Comment) (h : createComment file chunk v = .ok cs) :
    ∀ c ∈ cs, ∃ s, file.to = some s ∧ s ≠ "" ∧ c.path = s := by
  unfold createComment at h
  cases v with
  | arr xs => exact flatMapExcept_paths file xs cs h
  | undefined => cases h
  | null => cases h
  | bool b => cases h
  | num n => cases h
  | str s => cases h
  | obj fs => cases h

/-- Path provenance through the chunk loop. -/
theorem processChunks_paths (oracle : String → ServiceOutcome) (file : File)
    (pr : PRDetails) :
    ∀ (chunks : List Chunk) (cs : List Comment),
      (processChunks oracle file pr chunks).2 = .ok cs →
      ∀ c ∈ cs, ∃ s, file.to = some s ∧ s ≠ "" ∧ c.path = s := by
  intro chunks
  induction chunks with
  | nil =>
    intro cs h c hc
    cases h
    simp at hc
  | cons chunk rest ih =>
    intro cs h c hc
    unfold processChunks at h
    split at h
    next hg => exact ih cs h c hc
    next v hg =>
      split at h
      · split at h
        next e hcc => exact Except.noConfusion h
        next cs0 hcc =>
          unfold exceptPrepend at h
          split at h
          next e hrest => exact Except.noConfusion h
          next ds hrest =>
            cases h
            rcases List.mem_append.mp hc with hin | hin
            · exact createComment_paths file chunk v cs0 hcc c hin
            · exact ih ds hrest c hin
      · exact ih cs h c hc

/-- Path provenance through the file loop: every accumulated comment's path
is the real (non-empty, non-sentinel) target path of one of the input
files. -/
theorem analyzeFiles_paths (oracle : String → ServiceOutcome) (pr : PRDetails) :
    ∀ (files : List File) (cs : List Comment),
      (analyzeFiles oracle pr files).2 = .ok cs →
      ∀ c ∈ cs, ∃ f s, f ∈ files ∧ f.to = some s ∧ s ≠ "" ∧ s ≠ "/dev/null"
        ∧ c.path = s := by
  intro files
  induction files with
  | nil =>
    intro cs h c hc
    cases h
    simp at hc
  | cons file rest ih =>
    intro cs h c hc
    unfold analyzeFiles at h
    split at h
    next hskip =>
      rcases ih cs h c hc with ⟨f, s, hf, h1, h2, h3, h4⟩
      exact ⟨f, s, List.mem_cons_of_mem _ hf, h1, h2, h3, h4⟩
    next hskip =>
      split at h
      next ps e heq => exact Except.noConfusion h
      next ps cs0 heq =>
        unfold exceptPrepend at h
        split at h
        next e hrest => exact Except.noConfusion h
        next ds hrest =>
          cases h
          rcases List.mem_append.mp hc with hin | hin
          · have hp : (processChunks oracle file pr file.chunks).2 = .ok cs0 := by
              rw [heq]
            rcases processChunks_paths oracle file pr file.chunks cs0 hp c hin
              with ⟨s, h1, h2, h3⟩
            refine ⟨file, s, List.mem_cons_self _ _, h1, h2, ?dev, h3⟩
            intro hdev
            apply hskip
            rw [h1, hdev]
          · rcases ih ds hrest c hin with ⟨f, s, hf, h1, h2, h3, h4⟩
            exact ⟨f, s, List.mem_cons_of_mem _ hf, h1, h2, h3, h4⟩

/-- Characterization of the comment accumulator for one more chunk. -/
theorem processChunks_cons_snd (oracle : String → ServiceOutcome)
    (file : File) (pr : PRDetails) (c : Chunk) (rest : List Chunk) :
    (processChunks oracle file pr (c :: rest)).2 =
      match getAIResponse (oracle (createPrompt file c pr)) with
      | none => (processChunks oracle file pr rest).2
      | some v =>
        if truthy v then
          match createComment file c v with
          | .error e => .error e
          | .ok cs => exceptPrepend cs (processChunks oracle file pr rest).2
        else (processChunks oracle file pr rest).2 := by
  cases hg : getAIResponse (oracle (createPrompt file c pr)) with
  | none => simp [processChunks, hg]
  | some v =>
    by_cases ht : truthy v
    · cases hcc : createComment file c v with
      | error e => simp [processChunks, hg, ht, hcc]
      | ok cs => simp [processChunks, hg, ht, hcc]
    · simp [processChunks, hg, ht]

/-- Characterization of the comment accumulator for one more file. -/
theorem analyzeFiles_cons_snd (oracle : String → ServiceOutcome)
    (pr : PRDetails) (file : File) (rest : List File) :
    (analyzeFiles oracle pr (file :: rest)).2 =
      if file.to = some "/dev/null" then (analyzeFiles oracle pr rest).2
      else
        match (processChunks oracle file pr file.chunks).2 with
        | .error e => .error e
        | .ok cs => exceptPrepend cs (analyzeFiles oracle pr rest).2 := by
  by_cases hskip : file.to = some "/dev/null"
  · simp [analyzeFiles, hskip]
  · cases hp : processChunks oracle file pr file.chunks with
    | mk ps r =>
      cases r with
      | error e => simp [analyzeFiles, hskip, hp]
      | ok cs => simp [analyzeFiles, hskip, hp]

/-- Dropping a null-result chunk anywhere in a file's chunk list leaves the
comment accumulator unchanged. -/
theorem processChunks_middle_none (oracle : String → ServiceOutcome)
    (file : File) (pr : PRDetails) (chunk : Chunk)
    (h : getAIResponse (oracle (createPrompt file chunk pr)) = none) :
    ∀ (before after : List Chunk),
      (processChunks oracle file pr (before ++ chunk :: after)).2
        = (processChunks oracle file pr (before ++ after)).2 := by
  intro before
  induction before with
  | nil =>
    intro after
    simpa using processChunks_cons_none oracle file pr chunk after h
  | cons c0 cs0 ih =>
    intro after
    simp only [List.cons_append]
    rw [processChunks_cons_snd, processChunks_cons_snd]
    cases hg : getAIResponse (oracle (createPrompt file c0 pr)) with
    | none => simp only; exact ih after
    | some v =>
      by_cases ht : truthy v
      · cases hcc : createComment file c0 v with
        | error e => simp [ht, hcc]
        | ok cs1 => simp only [ht, hcc, if_true]; rw [ih after]
      · simp only [ht, if_false]; exact ih after

/-- The chunk loop reads its `file` argument only through the `to` field,
never through the file's own chunk list. -/
theorem processChunks_to_congr (oracle : String → ServiceOutcome)
    (pr : PRDetails) (t : Option String) (cs1 cs2 : List Chunk) :
    ∀ chunks, processChunks oracle ⟨t, cs1⟩ pr chunks
      = processChunks oracle ⟨t, cs2⟩ pr chunks := by
  intro chunks
  induction chunks with
  | nil => rfl
  | cons c rest ih =>
    unfold processChunks
    rw [ih]
    rfl

/-! ## Concrete fixtures used by closed theorems and witnesses -/

/-- A concrete pull-request context. -/
def pr0 : PRDetails := ⟨"octo", "repo", 7, "Title", "Description"⟩

/-- A one-addition-line chunk. -/
def chunkA : Chunk := ⟨"@@ -1,1 +1,1 @@", [⟨some 1, none, "+x"⟩]⟩

/-- A file with a real target path and one chunk. -/
def fileA : File := ⟨some "src/a.ts", [chunkA]⟩

/-- A file with a real target path and two chunks. -/
def fileTwoChunks : File := ⟨some "src/a.ts", [⟨"@@a", []⟩, ⟨"@@b", []⟩]⟩

/-- The well-formed completion reply of the round-trip scenario. -/
def replyGood : String :=
  "[\x7b\"lineNumber\":\"12\",\"reviewComment\":\"fix this\"\x7d]"

/-- An oracle that always answers with the well-formed reply. -/
def oracleGood : String → ServiceOutcome := fun _ => .reply (some replyGood)

/-- The comment the round-trip scenario produces. -/
def commentGood : Comment := ⟨"[GPT-REVIEW] fix this", "src/a.ts", .val 12⟩

/-- Decidable check that a JS number is a non-negative integer (the `line`
invariant claimed by the spec). -/
def isNonnegInt : JSNum → Bool
  | .nan => false
  | .val q => q.den == 1 && decide (0 ≤ q.num)

/-! ## Claims -/

/-- Claim C1, counterexample.  The claim says a reply that is "not parseable
as the expected JSON shape" is recovered locally as zero suggestions and
the run continues over remaining chunks.  But the reply `"{}"` is valid
JSON of the wrong shape: `JSON.parse` succeeds inside `getAIResponse`, the
parsed object is truthy, and `createComment` then calls `.flatMap` on a
non-array, throwing a TypeError that is caught nowhere below `main`'s
rethrow.  On a file with two chunks the run aborts with that exception and
the second chunk's prompt is never built. -/
theorem claim_C1_counterexample :
    (analyzeCode (fun _ => .reply (some "\x7b\x7d")) [fileTwoChunks] pr0).2
      = .error ()
    ∧ (analyzeCode (fun _ => .reply (some "\x7b\x7d")) [fileTwoChunks] pr0).1.length
      = 1 := by
  constructor
  · decide
  · decide

/-- Claim C1, amended: a completion reply that is empty, unparseable as
JSON, or a failed service call is recovered locally as zero suggestions
for that chunk — the accumulated comments are exactly those of the
remaining chunks and no exception escapes.  (A reply parsing to a truthy
non-array JSON value is NOT recovered; see the counterexample.) -/
theorem claim_C1 (oracle : String → ServiceOutcome) (file : File)
    (pr : PRDetails) (chunk : Chunk) (rest : List Chunk)
    (h : oracle (createPrompt file chunk pr) = .failure
       ∨ oracle (createPrompt file chunk pr) = .reply none
       ∨ ∃ s, oracle (createPrompt file chunk pr) = .reply (some s)
           ∧ (jsTrim s = "" ∨ jsonParse (jsTrim s) = none)) :
    (processChunks oracle file pr (chunk :: rest)).2
      = (processChunks oracle file pr rest).2 := by
  have hj : jsonParse "[]" = some (.arr []) := by decide
  rcases h with h | h | ⟨s, h, hs⟩
  · apply processChunks_cons_none
    simp [getAIResponse, h]
  · apply processChunks_cons_emptyArr
    simp [getAIResponse, h, hj]
  · by_cases hempty : jsTrim s = ""
    · apply processChunks_cons_emptyArr
      simp [getAIResponse, h, hempty, hj]
    · rcases hs with hs | hs
      · exact absurd hs hempty
      · apply processChunks_cons_none
        simp [getAIResponse, h, hempty, hs]

/-- Claim C1, witness: a failed service call on a one-chunk file leaves the
accumulator exactly as if the chunk were absent. -/
theorem claim_C1_witness :
    (processChunks (fun _ => ServiceOutcome.failure) fileA pr0 [chunkA]).2
      = (processChunks (fun _ => ServiceOutcome.failure) fileA pr0 []).2 :=
  claim_C1 (fun _ => ServiceOutcome.failure) fileA pr0 chunkA [] (Or.inl rfl)

/-- Claim C2, counterexample.  The claim says every PostableComment's line
is a non-negative integer, but `line: Number(aiResponse.lineNumber)` is
never validated: the reply `[{"lineNumber":"-5","reviewComment":"x"}]`
produces a comment with line `-5`. -/
theorem claim_C2_counterexample :
    (analyzeCode
        (fun _ => .reply
          (some "[\x7b\"lineNumber\":\"-5\",\"reviewComment\":\"x\"\x7d]"))
        [fileA] pr0).2
      = .ok [⟨"[GPT-REVIEW] x", "src/a.ts", .val (-5)⟩]
    ∧ isNonnegInt (.val (-5)) = false := by
  constructor
  · decide
  · decide

/-- Claim C2, amended: every PostableComment accumulated by the pipeline
has a non-empty path that is never the deleted-file sentinel, and comes
from a file of the input diff whose target path it is; the `line` field is
the raw JS numeric coercion of the suggestion's `lineNumber` and may be
negative, fractional or NaN (see the counterexample). -/
theorem claim_C2 (oracle : String → ServiceOutcome) (files : List File)
    (pr : PRDetails) (comments : List Comment)
    (h : (analyzeCode oracle files pr).2 = .ok comments) :
    ∀ c ∈ comments, c.path ≠ "" ∧ c.path ≠ "/dev/null"
      ∧ ∃ f ∈ files, f.to = some c.path := by
  intro c hc
  rcases analyzeFiles_paths oracle pr files comments h c hc
    with ⟨f, s, hf, h1, h2, h3, h4⟩
  rw [h4]
  exact ⟨h2, h3, f, hf, h1⟩

/-- Claim C2, witness: the round-trip run produces one comment whose path
is `"src/a.ts"`, non-empty, non-sentinel. -/
theorem claim_C2_witness :
    commentGood.path ≠ "" ∧ commentGood.path ≠ "/dev/null" :=
  ⟨(claim_C2 oracleGood [fileA] pr0 [commentGood] (by decide) commentGood
      (by decide)).1,
   (claim_C2 oracleGood [fileA] pr0 [commentGood] (by decide) commentGood
      (by decide)).2.1⟩

/-- Claim C3: the well-formed reply `[{"lineNumber":"12","reviewComment":
"fix this"}]` on a chunk of the file `"src/a.ts"` yields exactly one
PostableComment `{body: "[GPT-REVIEW] fix this", path: "src/a.ts",
line: 12}`. -/
theorem claim_C3 :
    (analyzeCode oracleGood [fileA] pr0).2
      = .ok [⟨"[GPT-REVIEW] fix this", "src/a.ts", .val 12⟩] := by
  decide

/-- Claim C5: a parsed diff whose files all carry the deleted-file sentinel
as target path produces an empty comment list, and no prompt is ever built
(the prompt trace is empty). -/
theorem claim_C5 (oracle : String → ServiceOutcome) (files : List File)
    (pr : PRDetails) :
    (∀ f ∈ files, f.to = some "/dev/null") →
    analyzeCode oracle files pr = ([], .ok []) := by
  unfold analyzeCode
  induction files with
  | nil => intro _; rfl
  | cons file rest ih =>
    intro h
    have hf : file.to = some "/dev/null" := h file (List.mem_cons_self _ _)
    have hskip : analyzeFiles oracle pr (file :: rest)
        = analyzeFiles oracle pr rest := by
      simp [analyzeFiles, hf]
    rw [hskip]
    exact ih (fun f hf2 => h f (List.mem_cons_of_mem _ hf2))

/-- Claim C5, witness: a single deleted file yields no prompts and no
comments. -/
theorem claim_C5_witness :
    analyzeCode (fun _ => ServiceOutcome.failure)
      [⟨some "/dev/null", [chunkA]⟩] pr0 = ([], .ok []) :=
  claim_C5 (fun _ => ServiceOutcome.failure)
    [⟨some "/dev/null", [chunkA]⟩] pr0 (by decide)

/-- Claim C4: no comment accumulated from a filtered diff has a path
matching any exclude pattern, for every glob matcher, pattern set, diff,
oracle and PR context — the Path Filter runs strictly before analysis and
nothing downstream can re-introduce an excluded file's path. -/
theorem claim_C4 (matcher : String → String → Bool)
    (excludePatterns : List String) (oracle : String → ServiceOutcome)
    (parsedDiff : List File) (pr : PRDetails) (comments : List Comment)
    (h : (analyzeCode oracle (filterFiles matcher excludePatterns parsedDiff)
            pr).2 = .ok comments) :
    ∀ c ∈ comments, ∀ p ∈ excludePatterns, matcher c.path p = false := by
  intro c hc p hp
  rcases analyzeFiles_paths oracle pr _ comments h c hc
    with ⟨f, s, hf, h1, h2, h3, h4⟩
  unfold filterFiles at hf
  have hkeep := (List.mem_filter.mp hf).2
  have hany : (excludePatterns.any fun pattern =>
      matcher (f.to.getD "") pattern) = false := by
    simpa using hkeep
  have hgd : f.to.getD "" = s := by rw [h1]; rfl
  rw [h4]
  cases hmq : matcher s p with
  | false => rfl
  | true =>
    exfalso
    have : (excludePatterns.any fun pattern =>
        matcher (f.to.getD "") pattern) = true := by
      refine List.any_eq_true.mpr ⟨p, hp, ?_⟩
      rw [hgd]
      exact hmq
    rw [this] at hany
    cases hany

/-- Claim C4, witness: in the round-trip run filtered against the pattern
list `["x.md"]` with an equality matcher, the produced comment's path does
not match the pattern. -/
theorem claim_C4_witness :
    (fun s p => s == p) "src/a.ts" "x.md" = false :=
  claim_C4 (fun s p => s == p) ["x.md"] oracleGood [fileA] pr0 [commentGood]
    (by decide) commentGood (by decide) "x.md" (by decide)

/-- Claim C6: a chunk whose Review Client result is null contributes zero
comments and leaves the processing of every other chunk and file
untouched — the accumulated comments equal those of the same run with the
null-result chunk removed from its file. -/
theorem claim_C6 (oracle : String → ServiceOutcome) (pr : PRDetails)
    (to0 : Option String) (chunk : Chunk) (before after : List Chunk)
    (files1 files2 : List File)
    (h : getAIResponse
        (oracle (createPrompt ⟨to0, before ++ chunk :: after⟩ chunk pr))
      = none) :
    (analyzeCode oracle
        (files1 ++ (⟨to0, before ++ chunk :: after⟩ : File) :: files2) pr).2
      = (analyzeCode oracle
          (files1 ++ (⟨to0, before ++ after⟩ : File) :: files2) pr).2 := by
  unfold analyzeCode
  induction files1 with
  | nil =>
    simp only [List.nil_append]
    rw [analyzeFiles_cons_snd, analyzeFiles_cons_snd]
    by_cases hskip : to0 = some "/dev/null"
    · simp [hskip]
    · have hpc := processChunks_middle_none oracle
        ⟨to0, before ++ chunk :: after⟩ pr chunk h before after
      have hcg := processChunks_to_congr oracle pr to0
        (before ++ chunk :: after) (before ++ after) (before ++ after)
      simp only [hskip, if_false]
      rw [hpc, hcg]
  | cons file1 rest1 ih =>
    simp only [List.cons_append]
    rw [analyzeFiles_cons_snd, analyzeFiles_cons_snd]
    by_cases hskip : file1.to = some "/dev/null"
    · simp only [hskip, if_true]
      exact ih
    · simp only [hskip, if_false]
      cases hr : (processChunks oracle file1 pr file1.chunks).2 with
      | error e => rfl
      | ok cs =>
        unfold exceptPrepend
        rw [ih]

/-- Claim C6, witness: with an always-failing service, removing the single
chunk of a file leaves the accumulated comments unchanged. -/
theorem claim_C6_witness :
    (analyzeCode (fun _ => ServiceOutcome.failure)
        ([] ++ (⟨some "src/a.ts", [] ++ chunkA :: []⟩ : File) :: []) pr0).2
      = (analyzeCode (fun _ => ServiceOutcome.failure)
          ([] ++ (⟨some "src/a.ts", ([] : List Chunk) ++ []⟩ : File) :: []) pr0).2 :=
  claim_C6 (fun _ => ServiceOutcome.failure) pr0 (some "src/a.ts")
    chunkA [] [] [] [] rfl

/-- Rendering of one change line as the specification words it: the
line number is the old-side field when present, otherwise the new-side
field, followed by a space and the line content.  Second definition for
the refinement comparison of claim C7. -/
def renderChangeSpec (c : Change) : String :=
  (match c.ln with
   | some n => toString n
   | none => jsTemplNum c.ln2) ++ " " ++ c.content

/-- Claim C7: for a file with a real target path and a chunk whose present
`ln` fields are non-zero (always true of line numbers produced by a real
diff, which are 1-based), the built prompt is exactly the instruction
template with the file path, PR title and PR description embedded
verbatim, followed by the raw chunk content and one`<line-number>
<line-content>` rendering per change line preferring the old-side field.
(The non-zero hypothesis is needed because the source selects the field
with JS truthiness, under which a present `ln` of `0` would fall back to
`ln2`.) -/
theorem claim_C7 (file : File) (chunk : Chunk) (pr : PRDetails) (p : String)
    (hp : file.to = some p) (h0 : ∀ c ∈ chunk.changes, c.ln ≠ some 0) :
    createPrompt file chunk pr
      = promptSeg1 ++ p ++ promptSeg2 ++ pr.title ++ promptSeg3
        ++ pr.description ++ promptSeg4 ++ chunk.content ++ "\n"
        ++ String.intercalate "\n" (chunk.changes.map renderChangeSpec)
        ++ promptSeg5 := by
  have hmap : chunk.changes.map renderChange
      = chunk.changes.map renderChangeSpec := by
    refine List.map_congr_left ?_
    intro c hcmem
    unfold renderChange renderChangeSpec
    cases hln : c.ln with
    | none => rfl
    | some n =>
      have hn : n ≠ 0 := by
        intro hz
        exact h0 c hcmem (by rw [hln, hz])
      simp [hn]
  unfold createPrompt
  rw [hp, hmap]
  rfl

/-- Claim C7, witness: the concrete prompt for `fileA`/`chunkA` decomposes
into the template segments with path, title, description, chunk content
and rendered change lines embedded. -/
theorem claim_C7_witness :
    createPrompt fileA chunkA pr0
      = promptSeg1 ++ "src/a.ts" ++ promptSeg2 ++ pr0.title ++ promptSeg3
        ++ pr0.description ++ promptSeg4 ++ chunkA.content ++ "\n"
        ++ String.intercalate "\n" (chunkA.changes.map renderChangeSpec)
        ++ promptSeg5 :=
  claim_C7 fileA chunkA pr0 "src/a.ts" rfl (by decide)

/-- Claim C8: when analysis completes, a non-empty accumulated comment list
is submitted in exactly one review-creation call carrying all the comments
with the comment-only disposition `"COMMENT"`; an empty list makes no call;
and an exception during analysis propagates so that no call at all is
made — there is no partial submission. -/
theorem claim_C8 (oracle : String → ServiceOutcome) (files : List File)
    (pr : PRDetails) :
    (∀ comments, (analyzeCode oracle files pr).2 = .ok comments →
      (comments ≠ [] →
        analyzeAndSubmit oracle files pr
          = .ok [SubmitCall.createReview pr.owner pr.repo pr.pull_number
                   comments "COMMENT"])
      ∧ (comments = [] → analyzeAndSubmit oracle files pr = .ok []))
    ∧ (∀ e, (analyzeCode oracle files pr).2 = .error e →
        analyzeAndSubmit oracle files pr = .error e) := by
  constructor
  · intro comments h
    constructor
    · intro hne
      unfold analyzeAndSubmit
      rw [h]
      unfold submitComments
      have hlen : comments.length > 0 := List.length_pos.mpr hne
      simp [hlen]
    · intro he
      subst he
      unfold analyzeAndSubmit
      rw [h]
      rfl
  · intro e h
    unfold analyzeAndSubmit
    rw [h]

/-- Claim C8, witness: the round-trip run submits its one comment in a
single `"COMMENT"`-disposition review call. -/
theorem claim_C8_witness :
    analyzeAndSubmit oracleGood [fileA] pr0
      = .ok [SubmitCall.createReview "octo" "repo" 7 [commentGood] "COMMENT"] :=
  ((claim_C8 oracleGood [fileA] pr0).1 [commentGood] (by decide)).1 (by decide)

/-- Claim C9: the constructed PR context always has string-valued title and
description — a null title or body from the hosting API is replaced by the
empty string, and a present one is passed through unchanged. -/
theorem claim_C9 (event : EventPayload) (api : PRApiData) :
    ((api.title = none → (getPRDetails event api).title = "")
      ∧ (∀ t, api.title = some t → (getPRDetails event api).title = t))
    ∧ ((api.body = none → (getPRDetails event api).description = "")
      ∧ (∀ b, api.body = some b → (getPRDetails event api).description = b)) := by
  refine ⟨⟨?_, ?_⟩, ?_, ?_⟩
  · intro h
    simp [getPRDetails, h]
  · intro t ht
    simp [getPRDetails, ht]
  · intro h
    simp [getPRDetails, h]
  · intro b hb
    simp [getPRDetails, hb]

/-- Claim C9, witness: a null title becomes `""` and a present body is kept
verbatim. -/
theorem claim_C9_witness :
    (getPRDetails ⟨"octo", "repo", 7⟩ ⟨none, some "hello"⟩).title = ""
    ∧ (getPRDetails ⟨"octo", "repo", 7⟩ ⟨none, some "hello"⟩).description
      = "hello" :=
  ⟨(claim_C9 ⟨"octo", "repo", 7⟩ ⟨none, some "hello"⟩).1.1 rfl,
   (claim_C9 ⟨"octo", "repo", 7⟩ ⟨none, some "hello"⟩).2.2 "hello" rfl⟩

/-- Non-throwing JS property read, used to state what `createComment` maps
each suggestion to. -/
def jsFieldD (x : JSVal) (name : String) : JSVal :=
  match x with
  | .obj fs =>
    (match fs.reverse.find? (fun p => p.1 == name) with
     | some p => p.2
     | none => .undefined)
  | _ => .undefined

/-- On anything but `null`/`undefined`, property access does not throw. -/
theorem jsField_eq_fieldD (x : JSVal) (name : String)
    (h1 : x ≠ .null) (h2 : x ≠ .undefined) :
    jsField x name = .ok (jsFieldD x name) := by
  cases x with
  | null => exact absurd rfl h1
  | undefined => exact absurd rfl h2
  | bool b => rfl
  | num n => rfl
  | str s => rfl
  | arr xs => rfl
  | obj fs => rfl

/-- The `flatMap` over a well-formed suggestion list maps each suggestion
to its prefixed comment. -/
theorem flatMapExcept_wellformed (file : File) (s : String)
    (hs : file.to = some s) (hne : s ≠ "") :
    ∀ xs, (∀ x ∈ xs, x ≠ JSVal.null ∧ x ≠ JSVal.undefined) →
      flatMapExcept (commentOfSuggestion file) xs
        = .ok (xs.map fun x =>
            ⟨"[GPT-REVIEW] " ++ jsToString (jsFieldD x "reviewComment"), s,
             jsToNumber (jsFieldD x "lineNumber")⟩) := by
  intro xs
  induction xs with
  | nil => intro _; rfl
  | cons x xs ih =>
    intro hx
    have hx0 := hx x (List.mem_cons_self _ _)
    have h1 : commentOfSuggestion file x
        = .ok [⟨"[GPT-REVIEW] " ++ jsToString (jsFieldD x "reviewComment"), s,
               jsToNumber (jsFieldD x "lineNumber")⟩] := by
      unfold commentOfSuggestion
      rw [hs]
      simp [hne, jsField_eq_fieldD x _ hx0.1 hx0.2]
    have h2 := ih (fun y hy => hx y (List.mem_cons_of_mem _ hy))
    unfold flatMapExcept
    rw [h1, h2]
    simp

/-- Claim C10: for a file with a real target path, `createComment` maps
every suggestion of the reply array (none of which is `null`/`undefined`)
to a comment whose body is exactly the fixed prefix `"[GPT-REVIEW] "`
followed by the string rendering of that suggestion's `reviewComment`
property. -/
theorem claim_C10 (file : File) (chunk : Chunk) (xs : List JSVal)
    (s : String) (hs : file.to = some s) (hne : s ≠ "")
    (hx : ∀ x ∈ xs, x ≠ JSVal.null ∧ x ≠ JSVal.undefined) :
    createComment file chunk (.arr xs)
      = .ok (xs.map fun x =>
          ⟨"[GPT-REVIEW] " ++ jsToString (jsFieldD x "reviewComment"), s,
           jsToNumber (jsFieldD x "lineNumber")⟩) :=
  flatMapExcept_wellformed file s hs hne xs hx

/-- Claim C10, witness: a concrete one-suggestion array maps to a comment
with the prefixed body. -/
theorem claim_C10_witness :
    createComment fileA chunkA
        (.arr [.obj [("lineNumber", .str "1"), ("reviewComment", .str "hi")]])
      = .ok ([(.obj [("lineNumber", .str "1"), ("reviewComment", .str "hi")]
              : JSVal)].map fun x =>
          ⟨"[GPT-REVIEW] " ++ jsToString (jsFieldD x "reviewComment"),
           "src/a.ts", jsToNumber (jsFieldD x "lineNumber")⟩) :=
  claim_C10 fileA chunkA
    [.obj [("lineNumber", .str "1"), ("reviewComment", .str "hi")]]
    "src/a.ts" rfl (by decide) (by decide)

end AICR
